import Mathlib

/-!
Shallow embedding of the xui-packager packaging tool (src/bin/index.js).

JavaScript objects are modelled as ordered association lists of
(key, value) pairs in which a later binding for a key shadows an earlier
one, matching JS assignment/spread semantics for key lookup.  File-system
effects are modelled as explicit state passing over a list of file paths;
the external collaborators (rsync, the zip stream writer, the SHA-256
hashing of bytes) are kept at the interface boundary as parameters.
-/

namespace XuiPackager

/-- A JavaScript value, as far as the packager manipulates them:
strings, booleans, numbers, arrays, plain objects and `undefined`. -/
inductive JsValue where
  | str (s : String)
  | boolean (b : Bool)
  | num (n : Int)
  | list (xs : List JsValue)
  | obj (fields : List (String × JsValue))
  | undef

/-- A JavaScript object: an ordered list of key/value bindings where a
later binding for the same key shadows an earlier one. -/
abbrev JsObj := List (String × JsValue)

/-- Key lookup in a JS object: the rightmost (latest) binding wins,
`none` when the key is absent (JS `undefined`). -/
def getKey? : JsObj → String → Option JsValue
  | [], _ => none
  | (k', v) :: rest, k =>
    match getKey? rest k with
    | some w => some w
    | none => if k' = k then some v else none

/-- JS property access `o[k]`: `undefined` when the key is absent. -/
def jsGet (o : JsObj) (k : String) : JsValue :=
  (getKey? o k).getD JsValue.undef

/-- JS truthiness of a value. -/
def truthy : JsValue → Bool
  | .str s => s != ""
  | .boolean b => b
  | .num n => n != 0
  | .list _ => true
  | .obj _ => true
  | .undef => false

/-- JS truthiness of a possibly-absent value (`undefined` is falsy). -/
def truthyOpt : Option JsValue → Bool
  | none => false
  | some v => truthy v

/-! ### String helpers mirroring the JavaScript string library calls -/

/-- JS `String.prototype.replace` with a string pattern replaces only the
first occurrence of the pattern; this is the list-of-characters core. -/
def replaceFirstList (pat rep : List Char) : List Char → List Char
  | [] => if pat.isPrefixOf ([] : List Char) then rep else []
  | c :: cs =>
    if pat.isPrefixOf (c :: cs) then rep ++ (c :: cs).drop pat.length
    else c :: replaceFirstList pat rep cs

/-- JS `s.replace(pat, rep)` for a string pattern: first occurrence only. -/
def jsReplaceFirst (s pat rep : String) : String :=
  ⟨replaceFirstList pat.data rep.data s.data⟩

/-- Node `path.basename`: the last `/`-separated segment of the path. -/
def basename (s : String) : String :=
  (s.splitOn "/").getLastD ""

/-- JS `s.slice(a, b)` for `0 ≤ a ≤ b` (clamped at the string's end). -/
def jsSlice (s : String) (a b : Nat) : String :=
  ⟨(s.data.drop a).take (b - a)⟩

/-- The characters before the first occurrence of a non-empty separator
(the whole list when the separator never occurs). -/
def splitHeadList (sep : List Char) : List Char → List Char
  | [] => []
  | c :: cs => if sep.isPrefixOf (c :: cs) then [] else c :: splitHeadList sep cs

/-- JS `s.split(sep)[0]` for a non-empty separator: the part of `s`
before the first occurrence of `sep`. -/
def jsSplitHead (s sep : String) : String :=
  ⟨splitHeadList sep.data s.data⟩

/-! ### Configuration parsing (`parseConfig`, src/bin/index.js lines 56-91) -/

/-- The fixed list of basic fields copied over by `parseConfig`. -/
def basicFields : List String :=
  ["vue_src", "xui_src", "output", "name", "exclude", "id"]

/-- Coerce a JS value to the string the code effectively uses in string
positions (only string values appear there in modelled runs). -/
def asStr : JsValue → String
  | .str s => s
  | _ => ""

/-- The `met_`-prefixed entries of the arguments object, with the first
occurrence of `met_` removed from the key (`key.replace` replaces only
the first occurrence). -/
def metEntries (args : JsObj) : JsObj :=
  args.foldl
    (fun md kv =>
      if ("met_" : String).data.isPrefixOf kv.1.data then
        md ++ [(jsReplaceFirst kv.1 "met_" "", kv.2)]
      else md)
    []

/-- The first step of `parseConfig`: copy over the basic fields whose
argument value is truthy, in the fixed field order. -/
def parseConfigBasic (args : JsObj) : JsObj :=
  basicFields.foldl
    (fun cfg field =>
      match getKey? args field with
      | some v => if truthy v then cfg ++ [(field, v)] else cfg
      | none => cfg)
    []

/-- The second step of `parseConfig`: add `iconPath` and `iconFilename`
when a truthy `icon` argument is present. -/
def parseConfigWithIcon (args : JsObj) : JsObj :=
  match getKey? args "icon" with
  | some v =>
    if truthy v then
      parseConfigBasic args ++
        [("iconPath", v), ("iconFilename", JsValue.str (basename (asStr v)))]
    else parseConfigBasic args
  | none => parseConfigBasic args

/-- `parseConfig(args)`: copy the basic fields that are truthy, derive
`iconPath`/`iconFilename` from a truthy `icon`, and collect every
`met_`-prefixed argument into `extraMetadata` (added only if any). -/
def parseConfig (args : JsObj) : JsObj :=
  if (metEntries args).isEmpty then parseConfigWithIcon args
  else parseConfigWithIcon args ++ [("extraMetadata", JsValue.obj (metEntries args))]

/-- The compiled-in default configuration (src/bin/index.js lines 25-32). -/
def defaultConfig : JsObj :=
  [("vueSrcDir", JsValue.str "dist"),
   ("xuiSrcDir", JsValue.str "xui/src"),
   ("outputDir", JsValue.str "xui/dist"),
   ("extraMetadata", JsValue.obj [("enabled", JsValue.boolean true)])]

/-! ### Configuration merging (`combineConfigs`, lines 93-105) -/

/-- The array spread `[...(o.exclude || [])]`: absent or falsy values give
the empty list, an array spreads to its elements, a truthy string spreads
to its characters as one-character strings.  (Spreading any other truthy
non-iterable value throws a TypeError in JS and is outside the modelled
domain.) -/
def excludeSpread (o : JsObj) : List JsValue :=
  match getKey? o "exclude" with
  | none => []
  | some v =>
    if truthy v then
      match v with
      | .list xs => xs
      | .str s => s.data.map (fun c => JsValue.str (String.singleton c))
      | _ => []
    else []

/-- The object spread `{...o.extraMetadata}` restricted to the object and
absent/primitive cases (spreading a primitive contributes no keys). -/
def metaSpread (o : JsObj) : JsObj :=
  match getKey? o "extraMetadata" with
  | some (.obj m) => m
  | _ => []

/-- One step of the `combineConfigs` reduce: spread `combined` then
`config`, then overwrite `exclude` with the concatenation of both
sides' lists and `extraMetadata` with the shallow merge of both sides. -/
def combineTwo (combined config : JsObj) : JsObj :=
  combined ++ config ++
    [("exclude", JsValue.list (excludeSpread combined ++ excludeSpread config)),
     ("extraMetadata", JsValue.obj (metaSpread combined ++ metaSpread config))]

/-- `combineConfigs(...configs)`: reduce over the configs starting from
the empty object. -/
def combineConfigs (configs : List JsObj) : JsObj :=
  configs.foldl combineTwo []

/-- The rsync source pattern of `copyFiles`: the destructured
`vueSrcDir` followed by a slash and a glob star. -/
def copyFilesSourcePattern (config : JsObj) : String :=
  asStr (jsGet config "vueSrcDir") ++ "/*"

/-- The directory `main` passes to `createOutputDir`: the merged
config's `outputDir`. -/
def createOutputDirTarget (config : JsObj) : String :=
  asStr (jsGet config "outputDir")

/-! ### Validation (`checkConfigRequirements`, lines 111-123)

The id check is the regex match of three letters, a hyphen, and eight
characters of the digit/letter class, over a 12-character string.  The
regex in the source carries the case-insensitive flag, so both character
classes accept either letter case. -/

/-- Character class of `A-Z` under the case-insensitive flag. -/
def idHeadClass (c : Char) : Bool :=
  ('A' ≤ c && c ≤ 'Z') || ('a' ≤ c && c ≤ 'z')

/-- Character class of `0-9a-z` under the case-insensitive flag. -/
def idTailClass (c : Char) : Bool :=
  ('0' ≤ c && c ≤ '9') || ('a' ≤ c && c ≤ 'z') || ('A' ≤ c && c ≤ 'Z')

/-- The anchored id regex of the source, with its case-insensitive flag:
exactly 12 characters, positions 0-2 in the letter class, position 3 a
hyphen, positions 4-11 in the digit/letter class. -/
def idRegexMatch (s : String) : Bool :=
  let cs := s.data
  cs.length == 12 && (cs.take 3).all idHeadClass &&
    ((cs.drop 3).take 1 == ['-']) && (cs.drop 4).all idTailClass

/-- Modelled from the spec: a letter of either case (class `A-Za-z`). -/
def specLetterClass (c : Char) : Bool :=
  ('A' ≤ c && c ≤ 'Z') || ('a' ≤ c && c ≤ 'z')

/-- Modelled from the spec: an alphanumeric (class `0-9a-zA-Z`). -/
def specAlnumClass (c : Char) : Bool :=
  ('0' ≤ c && c ≤ '9') || ('a' ≤ c && c ≤ 'z') || ('A' ≤ c && c ≤ 'Z')

/-- Modelled from the spec: the pattern of three letters, a hyphen, and
eight alphanumerics, anchored at both ends. -/
def specIdPattern (s : String) : Bool :=
  let cs := s.data
  cs.length == 12 && (cs.take 3).all specLetterClass &&
    ((cs.drop 3).take 1 == ['-']) && (cs.drop 4).all specAlnumClass

/-- The format error message thrown for an ill-formatted id; it quotes
the offending id verbatim at its end. -/
def idFormatErrorMsg (idv : String) : String :=
  "id must be in the format \"XXX-xxxxxxxx\" where \"XXX\" is any 3 uppercase letters (generally XUI or APL) and \"x\" is any number or lowercase letter. Received \"" ++
    idv ++ "\""

/-- `checkConfigRequirements(config)`: the required keys `id` then `name`
must be truthy, and the id must match the format regex; errors are
modelled as `Except.error` carrying the thrown message.  (A truthy
non-string id would raise a TypeError at `config.id.match` in JS; it is
modelled as a distinct error.) -/
def checkConfigRequirements (config : JsObj) : Except String Unit :=
  if !truthyOpt (getKey? config "id") then Except.error "id is required"
  else if !truthyOpt (getKey? config "name") then Except.error "name is required"
  else
    match getKey? config "id" with
    | some (.str idv) =>
      if idRegexMatch idv then Except.ok ()
      else Except.error (idFormatErrorMsg idv)
    | _ => Except.error "TypeError: config.id.match is not a function"

/-! ### Directory listing (`listDirContents`, lines 283-294)

The file system below a directory is modelled as a tree of entries; the
lister produces the same flat path sequence the source builds by pushing
`dir + "/" + entryName` for files (and for directories when not
recursing) and recursing into subdirectories when recursing. -/

/-- A directory entry: a file or a subdirectory with its own entries. -/
inductive Entry where
  | file (name : String)
  | dir (name : String) (children : List Entry)

/-- `listDirContents(dir, [], recurse)` over a modelled entry tree. -/
def listDirContents (dir : String) : List Entry → Bool → List String
  | [], _ => []
  | Entry.file name :: es, recurse =>
    (dir ++ "/" ++ name) :: listDirContents dir es recurse
  | Entry.dir name children :: es, recurse =>
    (if recurse then listDirContents (dir ++ "/" ++ name) children true
     else [dir ++ "/" ++ name]) ++ listDirContents dir es recurse

/-! ### Manifest building (`createXuiJson`, lines 237-274) -/

/-- The mapped listing of `createXuiJson`: every listed path with the
first occurrence of `dir + "/"` replaced by the empty string. -/
def packageContents (xuiSrcDir : String) (tree : List Entry) : List String :=
  (listDirContents xuiSrcDir tree true).map
    (fun f => jsReplaceFirst f (xuiSrcDir ++ "/") "")

/-- Modelled from the spec: a listing path with the leading root-slash
prefix removed, i.e. everything after the first `root.length + 1`
characters. -/
def stripRoot (root p : String) : String :=
  ⟨p.data.drop (root.data.length + 1)⟩

/-- The four fixed fields of the manifest record, in the order the object
literal of `createXuiJson` lists them.  `todayIso` stands for
`new Date().toISOString()`; the code keeps its part before `T`. -/
def xuiFixedFields (config : JsObj) (todayIso : String)
    (tree : List Entry) : JsObj :=
  [("name", jsGet config "name"),
   ("id", jsGet config "id"),
   ("last_updated", JsValue.str (jsSplitHead todayIso "T")),
   ("package_contents",
    JsValue.list
      ((packageContents (asStr (jsGet config "xuiSrcDir")) tree).map
        JsValue.str))]

/-- The manifest record built by `createXuiJson`: the four fixed fields,
then the spread of `extraMetadata`, then `icon` assigned last when the
config's `iconFilename` is truthy. -/
def createXuiJsonRecord (config : JsObj) (todayIso : String)
    (tree : List Entry) : JsObj :=
  let record : JsObj := xuiFixedFields config todayIso tree ++ metaSpread config
  match getKey? config "iconFilename" with
  | some v => if truthy v then record ++ [("icon", v)] else record
  | none => record

/-! ### Archive assembly (`createContentLibraryZip` and helpers,
lines 303-386)

The file system is a list of present paths; creating a write stream adds
its path, `unlinkSync` removes it.  The SHA-256 hex digest of the stage-1
archive bytes is an input parameter, hashing being an external
collaborator of the tool. -/

/-- The stage-1 archive path `outputDir + "/" + name + ".zip"`. -/
def zipXuiOutputPath (outputDir name : String) : String :=
  outputDir ++ "/" ++ name ++ ".zip"

/-- The manifest path `outputDir + "/" + name + ".json"`. -/
def xuiJsonPath (outputDir name : String) : String :=
  outputDir ++ "/" ++ name ++ ".json"

/-- Creating a write stream at a path makes the file present. -/
def createWriteStreamFs (fs : List String) (p : String) : List String :=
  fs ++ [p]

/-- `fs.unlinkSync`: the path is no longer present. -/
def unlinkFile (fs : List String) (p : String) : List String :=
  fs.filter (fun q => q != p)

/-- `zipXuiPackageFiles`: writes the stage-1 archive of the `xuiSrcDir`
tree and resolves to its path. -/
def zipXuiPackageFiles (fs : List String) (outputDir name : String) :
    List String × String :=
  let outputFilePath := zipXuiOutputPath outputDir name
  (createWriteStreamFs fs outputFilePath, outputFilePath)

/-- `zipContentLibraryPackageFiles`: short digest, final path, outer
archive entries (source path, entry name), and the updated file system.
`sha256OfStage1` is the hex digest `sha256File` computes from the stage-1
archive's bytes. -/
def zipContentLibraryPackageFiles (fs : List String) (outputDir name : String)
    (iconPath iconFilename : Option String) (sha256OfStage1 : String) :
    List String × String × List (String × String) :=
  let zipFile := zipXuiOutputPath outputDir name
  let metaFile := xuiJsonPath outputDir name
  let buildShaShort := jsSlice sha256OfStage1 0 7
  let outputFilePath := outputDir ++ "/" ++ name ++ "-" ++ buildShaShort ++ ".zip"
  let entries :=
    [(zipFile, name ++ ".zip"), (metaFile, name ++ ".json")] ++
      (match iconPath with
       | some ip => if ip != "" then [(ip, iconFilename.getD "")] else []
       | none => [])
  (createWriteStreamFs fs outputFilePath, outputFilePath, entries)

/-- `createContentLibraryZip` on its success path: run stage 1, run
stage 2, delete the stage-1 archive and the manifest, and resolve to the
stage-2 path. -/
def createContentLibraryZip (fs : List String) (outputDir name : String)
    (iconPath iconFilename : Option String) (sha256OfStage1 : String) :
    List String × String :=
  let fs1 := (zipXuiPackageFiles fs outputDir name).1
  let stage2 := zipContentLibraryPackageFiles fs1 outputDir name
    iconPath iconFilename sha256OfStage1
  let fs2 := stage2.1
  let contentZipPath := stage2.2.1
  let fs3 := unlinkFile fs2 (outputDir ++ "/" ++ name ++ ".zip")
  let fs4 := unlinkFile fs3 (outputDir ++ "/" ++ name ++ ".json")
  (fs4, contentZipPath)

/-! ### The orchestrator's stage machine (`main`, lines 125-174) -/

/-- The six guarded stages of `main`, in source order. -/
inductive Stage where
  | validate
  | prepareOutput
  | cleanup
  | mirror
  | manifest
  | archive
deriving DecidableEq

/-- Whether each stage's awaited operation succeeds in a given run. -/
structure RunOutcomes where
  validate : Bool
  prepareOutput : Bool
  cleanup : Bool
  mirror : Bool
  manifest : Bool
  archive : Bool

/-- `main`'s control flow: each `try` block runs its stage; a `catch`
reports and returns — except the cleanup stage, whose `catch` only warns.
The result is the list of stages that executed, in order, and the stage
at which the run halted with an error report (`none` on full success). -/
def mainRun (o : RunOutcomes) : List Stage × Option Stage :=
  if !o.validate then ([.validate], some .validate)
  else if !o.prepareOutput then
    ([.validate, .prepareOutput], some .prepareOutput)
  else
    -- cleanup failure is caught, warned about, and not propagated
    if !o.mirror then
      ([.validate, .prepareOutput, .cleanup, .mirror], some .mirror)
    else if !o.manifest then
      ([.validate, .prepareOutput, .cleanup, .mirror, .manifest], some .manifest)
    else if !o.archive then
      ([.validate, .prepareOutput, .cleanup, .mirror, .manifest, .archive],
       some .archive)
    else
      ([.validate, .prepareOutput, .cleanup, .mirror, .manifest, .archive], none)

/-- Whether a stage fails in a run. -/
def stageFails (o : RunOutcomes) : Stage → Bool
  | .validate => !o.validate
  | .prepareOutput => !o.prepareOutput
  | .cleanup => !o.cleanup
  | .mirror => !o.mirror
  | .manifest => !o.manifest
  | .archive => !o.archive

/-- Modelled from the spec: run the stages in order; the first failing
stage other than cleanup halts the run right there, while a cleanup
failure is only warned about and the run continues. -/
def specRunAux (o : RunOutcomes) : List Stage → List Stage → List Stage × Option Stage
  | [], acc => (acc, none)
  | s :: rest, acc =>
    if stageFails o s && !(s == Stage.cleanup) then (acc ++ [s], some s)
    else specRunAux o rest (acc ++ [s])

/-- Modelled from the spec: the strictly sequential stage machine with
best-effort cleanup. -/
def specRun (o : RunOutcomes) : List Stage × Option Stage :=
  specRunAux o
    [.validate, .prepareOutput, .cleanup, .mirror, .manifest, .archive] []

/-- The hypothesis of the exclude-concatenation claim: a configuration's
`exclude` field is either absent (contributing the empty list) or an
array of strings, and `l` is the contributed list. -/
def excludeListOk (o : JsObj) (l : List JsValue) : Prop :=
  (getKey? o "exclude" = none ∧ l = []) ∨
  (getKey? o "exclude" = some (JsValue.list l) ∧ ∀ v ∈ l, ∃ s, v = JsValue.str s)

/-- A concrete config whose metadata overrides `last_updated` and which
carries an icon filename. -/
def cfgDemoIcon : JsObj :=
  [("xuiSrcDir", JsValue.str "xui/src"),
   ("name", JsValue.str "demo"),
   ("id", JsValue.str "XUI-abcd1234"),
   ("extraMetadata", JsValue.obj [("last_updated", JsValue.str "2020-01-02")]),
   ("iconFilename", JsValue.str "logo.png")]

/-- A concrete config with neither a `last_updated` override nor an
icon. -/
def cfgDemoPlain : JsObj :=
  [("xuiSrcDir", JsValue.str "xui/src"),
   ("name", JsValue.str "demo"),
   ("id", JsValue.str "XUI-abcd1234")]

/-! ## Lemmas about the embedding -/

theorem getKey?_append (a b : JsObj) (k : String) :
    getKey? (a ++ b) k =
      match getKey? b k with
      | some w => some w
      | none => getKey? a k := by
  induction a with
  | nil => simp only [List.nil_append]; cases getKey? b k <;> rfl
  | cons p rest ih =>
    obtain ⟨k', v⟩ := p
    cases hb : getKey? b k <;> cases hr : getKey? rest k <;>
      simp [getKey?, ih, hb, hr]

theorem getKey?_singleton (k' : String) (v : JsValue) (k : String) :
    getKey? [(k', v)] k = if k' = k then some v else none := rfl

theorem replaceFirstList_of_leading (pat rep r : List Char) :
    replaceFirstList pat rep (pat ++ r) = rep ++ r := by
  have hpre : pat.isPrefixOf (pat ++ r) = true := by
    rw [ List.isPrefixOf_iff_prefix]; exact List.prefix_append pat r
  cases hp : pat ++ r with
  | nil =>
    obtain ⟨h1, h2⟩ := List.append_eq_nil.mp hp
    subst h1; subst h2
    simp [replaceFirstList]
  | cons c cs =>
    rw [← hp]
    have : replaceFirstList pat rep (pat ++ r) =
        if pat.isPrefixOf (pat ++ r) then rep ++ (pat ++ r).drop pat.length
        else (pat ++ r).head? |>.elim [] (fun c' =>
          c' :: replaceFirstList pat rep ((pat ++ r).tail)) := by
      rw [hp]; simp only [replaceFirstList]
      cases hpp : pat.isPrefixOf (c :: cs) <;> simp [hpp]
    rw [this, hpre]
    simp [List.drop_left]

/-- Stripping the leading root from `root ++ "/" ++ rest` with a
first-occurrence replace yields `rest`. -/
theorem jsReplaceFirst_leading_root (root rest : String) :
    jsReplaceFirst (root ++ "/" ++ rest) (root ++ "/") "" = rest := by
  have hdata : (root ++ "/" ++ rest).data = (root ++ "/").data ++ rest.data := by
    simp [String.data_append]
  unfold jsReplaceFirst
  rw [hdata, replaceFirstList_of_leading]
  rfl

/-- The source's case-insensitive regex accepts exactly the strings of the
spec's pattern of three letters, hyphen, eight alphanumerics. -/
theorem idRegexMatch_eq_specIdPattern (s : String) :
    idRegexMatch s = specIdPattern s := rfl

theorem getKey?_combineTwo_other (a b : JsObj) (k : String)
    (hk1 : k ≠ "exclude") (hk2 : k ≠ "extraMetadata") :
    getKey? (combineTwo a b) k =
      match getKey? b k with
      | some w => some w
      | none => getKey? a k := by
  unfold combineTwo
  rw [getKey?_append]
  have htail : getKey?
      [("exclude", JsValue.list (excludeSpread a ++ excludeSpread b)),
       ("extraMetadata", JsValue.obj (metaSpread a ++ metaSpread b))] k = none := by
    simp [getKey?, Ne.symm hk1, Ne.symm hk2]
  rw [htail, getKey?_append]

theorem getKey?_combineTwo_exclude (a b : JsObj) :
    getKey? (combineTwo a b) "exclude" =
      some (JsValue.list (excludeSpread a ++ excludeSpread b)) := by
  unfold combineTwo
  rw [getKey?_append]
  rfl

theorem getKey?_combineTwo_extraMetadata (a b : JsObj) :
    getKey? (combineTwo a b) "extraMetadata" =
      some (JsValue.obj (metaSpread a ++ metaSpread b)) := by
  unfold combineTwo
  rw [getKey?_append]
  rfl

theorem excludeSpread_combineTwo (a b : JsObj) :
    excludeSpread (combineTwo a b) = excludeSpread a ++ excludeSpread b := by
  conv_lhs => rw [excludeSpread]
  rw [getKey?_combineTwo_exclude]
  simp [truthy]

theorem metaSpread_combineTwo (a b : JsObj) :
    metaSpread (combineTwo a b) = metaSpread a ++ metaSpread b := by
  conv_lhs => rw [metaSpread]
  rw [getKey?_combineTwo_extraMetadata]

theorem excludeSpread_of_ok (o : JsObj) (l : List JsValue)
    (h : excludeListOk o l) : excludeSpread o = l := by
  rcases h with ⟨h1, h2⟩ | ⟨h1, _⟩
  · subst h2; unfold excludeSpread; rw [h1]
  · unfold excludeSpread; rw [h1]; simp [truthy]

/-- Every path produced by the recursive lister under `dir` starts with
`dir` followed by a slash. -/
theorem listDirContents_mem (dir : String) (tree : List Entry) (r : Bool) :
    ∀ f ∈ listDirContents dir tree r, ∃ rest, f = dir ++ "/" ++ rest := by
  induction dir, tree, r using listDirContents.induct with
  | case1 dir r => intro f hf; simp [listDirContents] at hf
  | case2 dir name es r ih =>
    intro f hf
    rw [listDirContents] at hf
    rcases List.mem_cons.mp hf with h | h
    · exact ⟨name, h⟩
    · exact ih f h
  | case3 dir name children es r ih1 ih2 =>
    intro f hf
    rw [listDirContents] at hf
    rcases List.mem_append.mp hf with h | h
    · by_cases hr : r = true
      · rw [if_pos hr] at h
        obtain ⟨rest, hrest⟩ := ih1 f h
        exact ⟨name ++ "/" ++ rest, by rw [hrest]; simp [String.append_assoc]⟩
      · rw [if_neg hr] at h
        rw [List.mem_singleton] at h
        exact ⟨name, h⟩
    · exact ih2 f h

/-- Stripping the leading root from `root ++ "/" ++ rest` by character
count yields `rest`. -/
theorem stripRoot_of_leading (root rest : String) :
    stripRoot root (root ++ "/" ++ rest) = rest := by
  unfold stripRoot
  have hdata : (root ++ "/" ++ rest).data = (root.data ++ ['/']) ++ rest.data := by
    simp [String.data_append]
  have hlen : root.data.length + 1 = (root.data ++ ['/']).length := by simp
  rw [hdata, hlen, List.drop_left]

/-- Looking up any key other than `icon` in the manifest record ignores
the trailing icon assignment. -/
theorem getKey?_createXuiJsonRecord_ne_icon (config : JsObj) (todayIso : String)
    (tree : List Entry) (k : String) (hk : k ≠ "icon") :
    getKey? (createXuiJsonRecord config todayIso tree) k =
      getKey? (xuiFixedFields config todayIso tree ++ metaSpread config) k := by
  simp only [createXuiJsonRecord]
  cases h : getKey? config "iconFilename" with
  | none => rfl
  | some v =>
    cases hv : truthy v with
    | false => simp [hv]
    | true =>
      simp only [hv, if_true]
      rw [getKey?_append]
      have hicon : getKey? [("icon", v)] k = none := by
        simp [getKey?, Ne.symm hk]
      rw [hicon]

/-! ## Claim theorems -/

/-- C4: in the orchestrator's strictly sequential stage machine, the
failure of any stage other than stale-archive cleanup halts the run with
a report at that stage and no later stage executes, while a cleanup
failure alone is only warned about and the run continues: the control
flow of `main` coincides with the spec's stage machine on every
combination of stage outcomes. -/
theorem mainRun_refines_specRun (o : RunOutcomes) : mainRun o = specRun o := by
  obtain ⟨a, b, c, d, e, f⟩ := o
  cases a <;> cases b <;> cases c <;> cases d <;> cases e <;> cases f <;> rfl

/-- C5: for every configuration with non-empty name and non-empty id,
validation succeeds exactly when the id matches the pattern of three
letters, a hyphen, and eight alphanumerics (case-insensitively on both
sides of the hyphen), and a format failure throws the message quoting the
offending id verbatim. -/
theorem checkConfigRequirements_format_iff (config : JsObj) (name idv : String)
    (hn : getKey? config "name" = some (JsValue.str name)) (hn' : name ≠ "")
    (hi : getKey? config "id" = some (JsValue.str idv)) (hi' : idv ≠ "") :
    (checkConfigRequirements config = Except.ok () ↔ specIdPattern idv = true) ∧
    (specIdPattern idv = false →
      checkConfigRequirements config = Except.error (idFormatErrorMsg idv) ∧
      ∃ pre, idFormatErrorMsg idv = pre ++ (idv ++ "\"")) := by
  have hid : truthyOpt (getKey? config "id") = true := by
    rw [hi]; simp [truthyOpt, truthy, hi']
  have hname : truthyOpt (getKey? config "name") = true := by
    rw [hn]; simp [truthyOpt, truthy, hn']
  unfold checkConfigRequirements
  rw [hid, hname, hi]
  simp only [Bool.not_true, Bool.false_eq_true, if_false]
  rw [idRegexMatch_eq_specIdPattern]
  cases h : specIdPattern idv with
  | true => simp [h]
  | false =>
    refine ⟨by simp [h], fun _ => ⟨by simp [h], ?_⟩⟩
    exact ⟨"id must be in the format \"XXX-xxxxxxxx\" where \"XXX\" is any 3 uppercase letters (generally XUI or APL) and \"x\" is any number or lowercase letter. Received \"",
      rfl⟩

/-- C5 witness: the theorem applied to the concrete config with name
`Test Config` and well-formatted id `ABC-12345678`. -/
theorem checkConfigRequirements_format_iff_witness :
    (checkConfigRequirements
        [("name", JsValue.str "Test Config"), ("id", JsValue.str "ABC-12345678")] =
          Except.ok () ↔ specIdPattern "ABC-12345678" = true) ∧
    (specIdPattern "ABC-12345678" = false →
      checkConfigRequirements
          [("name", JsValue.str "Test Config"), ("id", JsValue.str "ABC-12345678")] =
            Except.error (idFormatErrorMsg "ABC-12345678") ∧
      ∃ pre, idFormatErrorMsg "ABC-12345678" = pre ++ ("ABC-12345678" ++ "\"")) :=
  checkConfigRequirements_format_iff
    [("name", JsValue.str "Test Config"), ("id", JsValue.str "ABC-12345678")]
    "Test Config" "ABC-12345678" rfl (by decide) rfl (by decide)

/-- C6 counterexample: the claim asserts that every id whose eight-character
suffix contains an uppercase letter is rejected, but the source's regex
carries the case-insensitive flag, so validation accepts
`ABC-1234567Z`. -/
theorem checkConfigRequirements_accepts_uppercase_suffix :
    checkConfigRequirements
        [("name", JsValue.str "Test Config"), ("id", JsValue.str "ABC-1234567Z")] =
      Except.ok () := rfl

/-- C6 amended: validation fails with the invalid-format error for
`invalid-id` and succeeds for `ABC-12345678` and `abc-12345678`; the
whole pattern is matched case-insensitively, so the eight-character
suffix also accepts uppercase letters, e.g. `ABC-1234567Z` is accepted. -/
theorem checkConfigRequirements_examples :
    checkConfigRequirements
        [("name", JsValue.str "Test Config"), ("id", JsValue.str "invalid-id")] =
      Except.error (idFormatErrorMsg "invalid-id") ∧
    checkConfigRequirements
        [("name", JsValue.str "Test Config"), ("id", JsValue.str "ABC-12345678")] =
      Except.ok () ∧
    checkConfigRequirements
        [("name", JsValue.str "Test Config"), ("id", JsValue.str "abc-12345678")] =
      Except.ok () ∧
    checkConfigRequirements
        [("name", JsValue.str "Test Config"), ("id", JsValue.str "ABC-1234567Z")] =
      Except.ok () :=
  ⟨rfl, rfl, rfl, rfl⟩

/-- C2: for every triple of configurations whose `exclude` fields are
each absent or a list of strings, the merged configuration's `exclude`
is the concatenation of the three inputs' own lists in the order
default, then descriptor, then CLI, preserving duplicates. -/
theorem combineConfigs_exclude_concat (d p c : JsObj) (ld lp lc : List JsValue)
    (hd : excludeListOk d ld) (hp : excludeListOk p lp)
    (hc : excludeListOk c lc) :
    getKey? (combineConfigs [d, p, c]) "exclude" =
      some (JsValue.list (ld ++ lp ++ lc)) := by
  have h3 : combineConfigs [d, p, c] =
      combineTwo (combineTwo (combineTwo [] d) p) c := rfl
  rw [h3, getKey?_combineTwo_exclude, excludeSpread_combineTwo,
      excludeSpread_combineTwo, excludeSpread_of_ok d ld hd,
      excludeSpread_of_ok p lp hp, excludeSpread_of_ok c lc hc]
  simp [excludeSpread, getKey?, List.append_assoc]

/-- C2 witness: the theorem applied to a default with exclude `a`, a
descriptor with no exclude field, and a CLI config with exclude `a, b`;
the duplicate `a` is preserved. -/
theorem combineConfigs_exclude_concat_witness :
    getKey? (combineConfigs
        [[("exclude", JsValue.list [JsValue.str "a"])],
         [("name", JsValue.str "x")],
         [("exclude", JsValue.list [JsValue.str "a", JsValue.str "b"])]])
      "exclude" =
      some (JsValue.list
        ([JsValue.str "a"] ++ [] ++ [JsValue.str "a", JsValue.str "b"])) :=
  combineConfigs_exclude_concat
    [("exclude", JsValue.list [JsValue.str "a"])]
    [("name", JsValue.str "x")]
    [("exclude", JsValue.list [JsValue.str "a", JsValue.str "b"])]
    [JsValue.str "a"] [] [JsValue.str "a", JsValue.str "b"]
    (Or.inr ⟨rfl, by
      intro v hv
      rw [List.mem_singleton] at hv
      exact ⟨"a", hv⟩⟩)
    (Or.inl ⟨rfl, rfl⟩)
    (Or.inr ⟨rfl, by
      intro v hv
      rcases List.mem_cons.mp hv with h | h
      · exact ⟨"a", h⟩
      · rw [List.mem_singleton] at h
        exact ⟨"b", h⟩⟩)

/-- C9: a key other than `exclude` and `extraMetadata` that is present in
the CLI configuration appears in the merged configuration bound to the
CLI value, whatever the default and descriptor configurations carry. -/
theorem combineConfigs_cli_scalar_wins (d p c : JsObj) (k : String) (v : JsValue)
    (hk1 : k ≠ "exclude") (hk2 : k ≠ "extraMetadata")
    (hv : getKey? c k = some v) :
    getKey? (combineConfigs [d, p, c]) k = some v := by
  have h3 : combineConfigs [d, p, c] =
      combineTwo (combineTwo (combineTwo [] d) p) c := rfl
  rw [h3, getKey?_combineTwo_other _ _ _ hk1 hk2, hv]

/-- C9 witness: the CLI's `name` overrides both the default's and the
descriptor's values for `name`. -/
theorem combineConfigs_cli_scalar_wins_witness :
    getKey? (combineConfigs
        [[("name", JsValue.str "default")],
         [("name", JsValue.str "pkg")],
         [("name", JsValue.str "cli")]]) "name" =
      some (JsValue.str "cli") :=
  combineConfigs_cli_scalar_wins
    [("name", JsValue.str "default")]
    [("name", JsValue.str "pkg")]
    [("name", JsValue.str "cli")]
    "name" (JsValue.str "cli") (by decide) (by decide) rfl

/-- C3: in the manifest record, an `extraMetadata` entry for
`last_updated` overrides the generated date by the spread; without such
an entry the field is the generation date (the part of the ISO timestamp
before `T`); and the `icon` field is appended last, exactly when an icon
filename is present. -/
theorem createXuiJsonRecord_last_updated_icon (config : JsObj)
    (todayIso : String) (tree : List Entry) :
    (∀ v, getKey? (metaSpread config) "last_updated" = some v →
      getKey? (createXuiJsonRecord config todayIso tree) "last_updated" =
        some v) ∧
    (getKey? (metaSpread config) "last_updated" = none →
      getKey? (createXuiJsonRecord config todayIso tree) "last_updated" =
        some (JsValue.str (jsSplitHead todayIso "T"))) ∧
    (∀ v, getKey? config "iconFilename" = some v → truthy v = true →
      createXuiJsonRecord config todayIso tree =
        xuiFixedFields config todayIso tree ++ metaSpread config ++
          [("icon", v)]) ∧
    (truthyOpt (getKey? config "iconFilename") = false →
      createXuiJsonRecord config todayIso tree =
        xuiFixedFields config todayIso tree ++ metaSpread config) := by
  refine ⟨?_, ?_, ?_, ?_⟩
  · intro v hv
    rw [getKey?_createXuiJsonRecord_ne_icon _ _ _ _ (by decide),
      getKey?_append, hv]
  · intro hnone
    rw [getKey?_createXuiJsonRecord_ne_icon _ _ _ _ (by decide),
      getKey?_append, hnone]
    rfl
  · intro v hv htruthy
    simp only [createXuiJsonRecord]
    rw [hv]
    simp [htruthy]
  · intro hfalse
    simp only [createXuiJsonRecord]
    cases h : getKey? config "iconFilename" with
    | none => rfl
    | some v =>
      rw [h] at hfalse
      simp only [truthyOpt] at hfalse
      simp [hfalse]

/-- C3 witness: the theorem applied to a config whose metadata overrides
`last_updated` and carries an icon, and to one with neither, at the
generation timestamp `2026-10-11T00:00:00.000Z`. -/
theorem createXuiJsonRecord_last_updated_icon_witness :
    (getKey? (createXuiJsonRecord cfgDemoIcon "2026-10-11T00:00:00.000Z" [])
        "last_updated" = some (JsValue.str "2020-01-02")) ∧
    (getKey? (createXuiJsonRecord cfgDemoPlain "2026-10-11T00:00:00.000Z" [])
        "last_updated" = some (JsValue.str "2026-10-11")) ∧
    (createXuiJsonRecord cfgDemoIcon "2026-10-11T00:00:00.000Z" [] =
      xuiFixedFields cfgDemoIcon "2026-10-11T00:00:00.000Z" [] ++
        metaSpread cfgDemoIcon ++ [("icon", JsValue.str "logo.png")]) ∧
    (createXuiJsonRecord cfgDemoPlain "2026-10-11T00:00:00.000Z" [] =
      xuiFixedFields cfgDemoPlain "2026-10-11T00:00:00.000Z" [] ++
        metaSpread cfgDemoPlain) :=
  ⟨(createXuiJsonRecord_last_updated_icon cfgDemoIcon
      "2026-10-11T00:00:00.000Z" []).1 _ rfl,
   (createXuiJsonRecord_last_updated_icon cfgDemoPlain
      "2026-10-11T00:00:00.000Z" []).2.1 rfl,
   (createXuiJsonRecord_last_updated_icon cfgDemoIcon
      "2026-10-11T00:00:00.000Z" []).2.2.1 _ rfl rfl,
   (createXuiJsonRecord_last_updated_icon cfgDemoPlain
      "2026-10-11T00:00:00.000Z" []).2.2.2 rfl⟩

/-- A key is absent exactly when no binding carries it. -/
theorem getKey?_eq_none_iff (o : JsObj) (k : String) :
    getKey? o k = none ↔ ∀ p ∈ o, p.1 ≠ k := by
  induction o with
  | nil => simp [getKey?]
  | cons q rest ih =>
    obtain ⟨k', v⟩ := q
    cases hr : getKey? rest k with
    | some w =>
      simp only [getKey?, hr]
      constructor
      · intro h; exact absurd h (by simp)
      · intro h
        exfalso
        have hnone := ih.mpr (fun q hq => h q (List.mem_cons_of_mem _ hq))
        rw [hnone] at hr
        exact absurd hr (by simp)
    | none =>
      simp only [getKey?, hr]
      constructor
      · intro h q hq
        rcases List.mem_cons.mp hq with h1 | h1
        · subst h1
          intro hk
          rw [if_pos hk] at h
          exact absurd h (by simp)
        · exact ih.mp hr q h1
      · intro h
        have hk : k' ≠ k := h (k', v) (List.mem_cons_self _ _)
        rw [if_neg hk]

/-- Folding the basic-field copy leaves any other key untouched. -/
theorem getKey?_parseConfigBasic_of_nmem (args : JsObj) (k : String)
    (hk : k ∉ basicFields) : getKey? (parseConfigBasic args) k = none := by
  unfold parseConfigBasic
  suffices h : ∀ (fields : List String) (cfg : JsObj), k ∉ fields →
      getKey? (fields.foldl (fun cfg field =>
        match getKey? args field with
        | some v => if truthy v then cfg ++ [(field, v)] else cfg
        | none => cfg) cfg) k = getKey? cfg k by
    rw [h basicFields [] hk]; rfl
  intro fields
  induction fields with
  | nil => intro cfg _; rfl
  | cons f fs ih =>
    intro cfg hnf
    have hk1 : k ≠ f := fun h => hnf (h ▸ List.mem_cons_self f fs)
    have hk2 : k ∉ fs := fun h => hnf (List.mem_cons_of_mem f h)
    rw [List.foldl_cons, ih _ hk2]
    cases hv : getKey? args f with
    | none => rfl
    | some v =>
      cases ht : truthy v with
      | false => simp [ht]
      | true =>
        simp only [ht, if_true]
        rw [getKey?_append]
        have hsingle : getKey? [(f, v)] k = none := by
          simp [getKey?, Ne.symm hk1]
        rw [hsingle]

/-- The icon step adds only the two icon keys. -/
theorem getKey?_parseConfigWithIcon_of_nmem (args : JsObj) (k : String)
    (h1 : k ∉ basicFields) (h2 : k ≠ "iconPath") (h3 : k ≠ "iconFilename") :
    getKey? (parseConfigWithIcon args) k = none := by
  unfold parseConfigWithIcon
  cases hicon : getKey? args "icon" with
  | none => exact getKey?_parseConfigBasic_of_nmem args k h1
  | some v =>
    cases ht : truthy v with
    | false =>
      simp only [ht, Bool.false_eq_true, if_false]
      exact getKey?_parseConfigBasic_of_nmem args k h1
    | true =>
      simp only [ht, if_true]
      rw [getKey?_append]
      have hpair : getKey?
          [("iconPath", v), ("iconFilename", JsValue.str (basename (asStr v)))]
          k = none := by
        simp [getKey?, Ne.symm h2, Ne.symm h3]
      rw [hpair]
      exact getKey?_parseConfigBasic_of_nmem args k h1

/-- `parseConfig` emits no binding for keys it does not construct. -/
theorem getKey?_parseConfig_of_alien (args : JsObj) (k : String)
    (h1 : k ∉ basicFields) (h2 : k ≠ "iconPath") (h3 : k ≠ "iconFilename")
    (h4 : k ≠ "extraMetadata") :
    getKey? (parseConfig args) k = none := by
  unfold parseConfig
  cases hmd : (metEntries args).isEmpty with
  | true =>
    simp only [if_true]
    exact getKey?_parseConfigWithIcon_of_nmem args k h1 h2 h3
  | false =>
    simp only [Bool.false_eq_true, if_false]
    rw [getKey?_append]
    have hsingle : getKey? [("extraMetadata", JsValue.obj (metEntries args))]
        k = none := by
      simp [getKey?, Ne.symm h4]
    rw [hsingle]
    exact getKey?_parseConfigWithIcon_of_nmem args k h1 h2 h3

/-- The `extraMetadata` of a parsed config is exactly its `met_` entries,
absent when there are none. -/
theorem getKey?_parseConfig_extraMetadata (args : JsObj) :
    getKey? (parseConfig args) "extraMetadata" =
      if (metEntries args).isEmpty then none
      else some (JsValue.obj (metEntries args)) := by
  unfold parseConfig
  cases hmd : (metEntries args).isEmpty with
  | true =>
    simp only [if_true]
    exact getKey?_parseConfigWithIcon_of_nmem args _ (by decide) (by decide)
      (by decide)
  | false =>
    simp only [Bool.false_eq_true, if_false]
    rw [getKey?_append]
    rfl

/-- A parsed key equal to `target` arising from stripping the `met_`
marker forces the original argument key to be `met_` followed by
`target`. -/
theorem metKey_eq (s t : String)
    (hpre : ("met_" : String).data.isPrefixOf s.data = true)
    (heq : jsReplaceFirst s "met_" "" = t) : s = "met_" ++ t := by
  obtain ⟨rest, hrest⟩ := List.isPrefixOf_iff_prefix.mp hpre
  have hdrop : jsReplaceFirst s "met_" "" = ⟨rest⟩ := by
    unfold jsReplaceFirst
    rw [← hrest, replaceFirstList_of_leading]
    rfl
  rw [hdrop] at heq
  apply String.ext
  rw [← hrest, String.data_append, ← heq]

/-- If the arguments carry no `met_`-prefixed key for `key`, the met
entries carry no binding for `key`. -/
theorem getKey?_metEntries_none (args : JsObj) (key : String)
    (h : getKey? args ("met_" ++ key) = none) :
    getKey? (metEntries args) key = none := by
  have hall : ∀ p ∈ args, p.1 ≠ "met_" ++ key :=
    (getKey?_eq_none_iff args _).mp h
  unfold metEntries
  suffices h' : ∀ (l : JsObj) (md : JsObj),
      (∀ p ∈ l, p.1 ≠ "met_" ++ key) → getKey? md key = none →
      getKey? (l.foldl (fun md kv =>
        if ("met_" : String).data.isPrefixOf kv.1.data then
          md ++ [(jsReplaceFirst kv.1 "met_" "", kv.2)]
        else md) md) key = none from h' args [] hall rfl
  intro l
  induction l with
  | nil => intro md _ hmd; exact hmd
  | cons kv rest ih =>
    intro md hl hmd
    rw [List.foldl_cons]
    apply ih
    · intro p hp; exact hl p (List.mem_cons_of_mem _ hp)
    · cases hpre : ("met_" : String).data.isPrefixOf kv.1.data with
      | false => simpa [hpre] using hmd
      | true =>
        simp only [hpre, if_true]
        rw [getKey?_append]
        have hne : jsReplaceFirst kv.1 "met_" "" ≠ key := by
          intro heq
          exact hl kv (List.mem_cons_self _ _) (metKey_eq kv.1 key hpre heq)
        have hsingle : getKey? [(jsReplaceFirst kv.1 "met_" "", kv.2)] key =
            none := by
          simp [getKey?, hne]
        rw [hsingle, hmd]

/-- Without a `met_`-prefixed override for `key`, the parsed config's
metadata has no binding for `key`. -/
theorem getKey?_metaSpread_parseConfig_none (args : JsObj) (key : String)
    (h : getKey? args ("met_" ++ key) = none) :
    getKey? (metaSpread (parseConfig args)) key = none := by
  unfold metaSpread
  rw [getKey?_parseConfig_extraMetadata]
  cases hmd : (metEntries args).isEmpty with
  | true => rfl
  | false =>
    simp only [Bool.false_eq_true, if_false]
    exact getKey?_metEntries_none args key h

/-- In the three-way merge of the default with two parsed configs, any
key that `parseConfig` never constructs keeps its default value. -/
theorem getKey?_merged_default_scalar (pkgArgs cliArgs : JsObj) (k : String)
    (h1 : k ∉ basicFields) (h2 : k ≠ "iconPath") (h3 : k ≠ "iconFilename")
    (h4 : k ≠ "extraMetadata") (h5 : k ≠ "exclude") :
    getKey? (combineConfigs
        [defaultConfig, parseConfig pkgArgs, parseConfig cliArgs]) k =
      getKey? defaultConfig k := by
  have hc : combineConfigs [defaultConfig, parseConfig pkgArgs, parseConfig cliArgs] =
      combineTwo (combineTwo (combineTwo [] defaultConfig) (parseConfig pkgArgs))
        (parseConfig cliArgs) := rfl
  rw [hc, getKey?_combineTwo_other _ _ _ h5 h4,
      getKey?_parseConfig_of_alien cliArgs _ h1 h2 h3 h4,
      getKey?_combineTwo_other _ _ _ h5 h4,
      getKey?_parseConfig_of_alien pkgArgs _ h1 h2 h3 h4,
      getKey?_combineTwo_other _ _ _ h5 h4]
  cases getKey? defaultConfig k <;> rfl

/-- Membership after `unlinkSync`: everything but the removed path. -/
theorem mem_unlinkFile (fs : List String) (p q : String) :
    q ∈ unlinkFile fs p ↔ q ∈ fs ∧ q ≠ p := by
  simp [unlinkFile, List.mem_filter, bne_iff_ne]

/-- C7: every entry of `package_contents` is the corresponding listing
path with the leading root prefix (root plus slash) removed; in
particular, a tree listing as `xui/src/a.txt` and `xui/src/sub/b.txt`
under root `xui/src` yields `a.txt` and `sub/b.txt`. -/
theorem packageContents_strips_root (dir : String) (tree : List Entry) :
    packageContents dir tree =
      (listDirContents dir tree true).map (stripRoot dir) ∧
    listDirContents "xui/src"
        [Entry.file "a.txt", Entry.dir "sub" [Entry.file "b.txt"]] true =
      ["xui/src/a.txt", "xui/src/sub/b.txt"] ∧
    packageContents "xui/src"
        [Entry.file "a.txt", Entry.dir "sub" [Entry.file "b.txt"]] =
      ["a.txt", "sub/b.txt"] := by
  refine ⟨?_, by simp [listDirContents], ?_⟩
  · unfold packageContents
    apply List.map_congr_left
    intro f hf
    obtain ⟨rest, hrest⟩ := listDirContents_mem dir tree true f hf
    subst hrest
    rw [jsReplaceFirst_leading_root, stripRoot_of_leading]
  · simp only [packageContents]
    simp only [listDirContents]
    simp
    constructor <;> rfl

/-- C8: on the success path, the assembler resolves to the path
`outputDir/name-s.zip` where `s` is exactly the first 7 characters of
the SHA-256 hex digest of the stage-1 archive bytes, and it deletes the
intermediate stage-1 archive and manifest JSON, leaving the digest-named
archive present. -/
theorem createContentLibraryZip_final_artifact (fs : List String)
    (outputDir name : String) (iconPath iconFilename : Option String)
    (sha : String) (hsha : 7 ≤ sha.length) :
    (createContentLibraryZip fs outputDir name iconPath iconFilename sha).2 =
      outputDir ++ "/" ++ name ++ "-" ++ jsSlice sha 0 7 ++ ".zip" ∧
    (jsSlice sha 0 7).data = sha.data.take 7 ∧
    zipXuiOutputPath outputDir name ∉
      (createContentLibraryZip fs outputDir name iconPath iconFilename sha).1 ∧
    xuiJsonPath outputDir name ∉
      (createContentLibraryZip fs outputDir name iconPath iconFilename sha).1 ∧
    (createContentLibraryZip fs outputDir name iconPath iconFilename sha).2 ∈
      (createContentLibraryZip fs outputDir name iconPath iconFilename sha).1 := by
  have hres1 : (createContentLibraryZip fs outputDir name iconPath iconFilename
      sha).1 =
      unlinkFile (unlinkFile
        ((fs ++ [outputDir ++ "/" ++ name ++ ".zip"]) ++
          [outputDir ++ "/" ++ name ++ "-" ++ jsSlice sha 0 7 ++ ".zip"])
        (outputDir ++ "/" ++ name ++ ".zip"))
        (outputDir ++ "/" ++ name ++ ".json") := rfl
  have hres2 : (createContentLibraryZip fs outputDir name iconPath iconFilename
      sha).2 =
      outputDir ++ "/" ++ name ++ "-" ++ jsSlice sha 0 7 ++ ".zip" := rfl
  have hslice : (jsSlice sha 0 7).length = 7 := by
    have : (jsSlice sha 0 7).length = ((sha.data.drop 0).take 7).length := rfl
    rw [this, List.length_take, List.drop_zero]
    have hlen : sha.length = sha.data.length := rfl
    omega
  have hsl : ("/" : String).length = 1 := rfl
  have hda : ("-" : String).length = 1 := rfl
  have hzl : (".zip" : String).length = 4 := rfl
  have hjl : (".json" : String).length = 5 := rfl
  have hfinal_len :
      (outputDir ++ "/" ++ name ++ "-" ++ jsSlice sha 0 7 ++ ".zip").length =
        outputDir.length + name.length + 13 := by
    simp [String.length_append, hslice]
    omega
  have hzip_len : (outputDir ++ "/" ++ name ++ ".zip").length =
      outputDir.length + name.length + 5 := by
    simp [String.length_append]
    omega
  have hjson_len : (outputDir ++ "/" ++ name ++ ".json").length =
      outputDir.length + name.length + 6 := by
    simp [String.length_append]
    omega
  have hne_zip : outputDir ++ "/" ++ name ++ "-" ++ jsSlice sha 0 7 ++ ".zip" ≠
      outputDir ++ "/" ++ name ++ ".zip" := by
    intro h
    have := congrArg String.length h
    omega
  have hne_json : outputDir ++ "/" ++ name ++ "-" ++ jsSlice sha 0 7 ++ ".zip" ≠
      outputDir ++ "/" ++ name ++ ".json" := by
    intro h
    have := congrArg String.length h
    omega
  refine ⟨hres2, by simp [jsSlice], ?_, ?_, ?_⟩
  · rw [hres1, zipXuiOutputPath]
    simp [mem_unlinkFile]
  · rw [hres1, xuiJsonPath]
    simp [mem_unlinkFile]
  · rw [hres1, hres2, mem_unlinkFile, mem_unlinkFile]
    refine ⟨⟨by simp, hne_zip⟩, hne_json⟩

/-- C8 witness: the theorem applied to an empty file system, output
directory `xui/dist`, name `demo`, no icon, and a concrete 64-character
hex digest. -/
theorem createContentLibraryZip_final_artifact_witness :
    7 ≤ ("0123456789abcdef0123456789abcdef0123456789abcdef0123456789abcdef" :
        String).length ∧
    ((createContentLibraryZip [] "xui/dist" "demo" none none
        "0123456789abcdef0123456789abcdef0123456789abcdef0123456789abcdef").2 =
      "xui/dist" ++ "/" ++ "demo" ++ "-" ++
        jsSlice "0123456789abcdef0123456789abcdef0123456789abcdef0123456789abcdef"
          0 7 ++ ".zip" ∧
    (jsSlice "0123456789abcdef0123456789abcdef0123456789abcdef0123456789abcdef"
        0 7).data =
      ("0123456789abcdef0123456789abcdef0123456789abcdef0123456789abcdef" :
        String).data.take 7 ∧
    zipXuiOutputPath "xui/dist" "demo" ∉
      (createContentLibraryZip [] "xui/dist" "demo" none none
        "0123456789abcdef0123456789abcdef0123456789abcdef0123456789abcdef").1 ∧
    xuiJsonPath "xui/dist" "demo" ∉
      (createContentLibraryZip [] "xui/dist" "demo" none none
        "0123456789abcdef0123456789abcdef0123456789abcdef0123456789abcdef").1 ∧
    (createContentLibraryZip [] "xui/dist" "demo" none none
        "0123456789abcdef0123456789abcdef0123456789abcdef0123456789abcdef").2 ∈
      (createContentLibraryZip [] "xui/dist" "demo" none none
        "0123456789abcdef0123456789abcdef0123456789abcdef0123456789abcdef").1) :=
  ⟨by decide,
   createContentLibraryZip_final_artifact [] "xui/dist" "demo" none none
     "0123456789abcdef0123456789abcdef0123456789abcdef0123456789abcdef"
     (by decide)⟩

/-- C1 (divergence witness): `parseConfig` does parse `--vue_src` and
`--output` (into the keys `vue_src` and `output`), yet for every pair of
descriptor and CLI argument objects the mirroring stage's source pattern
and the output-directory stage's target are computed from the keys
`vueSrcDir` and `outputDir`, which only the compiled-in default supplies:
they are always `dist/*` and `xui/dist`, so the flags never override the
defaults. -/
theorem cli_dir_flags_never_reach_stages (pkgArgs cliArgs : JsObj) :
    copyFilesSourcePattern (combineConfigs
        [defaultConfig, parseConfig pkgArgs, parseConfig cliArgs]) = "dist/*" ∧
    createOutputDirTarget (combineConfigs
        [defaultConfig, parseConfig pkgArgs, parseConfig cliArgs]) = "xui/dist" ∧
    getKey? (parseConfig
        [("name", JsValue.str "demo"), ("id", JsValue.str "XUI-abcd1234"),
         ("vue_src", JsValue.str "mydist"), ("output", JsValue.str "myout")])
      "vue_src" = some (JsValue.str "mydist") ∧
    getKey? (parseConfig
        [("name", JsValue.str "demo"), ("id", JsValue.str "XUI-abcd1234"),
         ("vue_src", JsValue.str "mydist"), ("output", JsValue.str "myout")])
      "output" = some (JsValue.str "myout") := by
  have hv : getKey? (combineConfigs
      [defaultConfig, parseConfig pkgArgs, parseConfig cliArgs]) "vueSrcDir" =
      some (JsValue.str "dist") := by
    rw [getKey?_merged_default_scalar pkgArgs cliArgs _ (by decide) (by decide)
      (by decide) (by decide) (by decide)]
    rfl
  have ho : getKey? (combineConfigs
      [defaultConfig, parseConfig pkgArgs, parseConfig cliArgs]) "outputDir" =
      some (JsValue.str "xui/dist") := by
    rw [getKey?_merged_default_scalar pkgArgs cliArgs _ (by decide) (by decide)
      (by decide) (by decide) (by decide)]
    rfl
  refine ⟨?_, ?_, rfl, rfl⟩
  · rw [copyFilesSourcePattern, jsGet, hv]
    rfl
  · rw [createOutputDirTarget, jsGet, ho]
    rfl

/-- C10: the compiled-in default metadata is `enabled: true`, so unless a
descriptor or CLI `met_enabled` argument overrides the key, the merged
configuration's metadata — and hence the generated manifest record —
binds `enabled` to `true`. -/
theorem merged_metadata_enabled_true (pkgArgs cliArgs : JsObj)
    (todayIso : String) (tree : List Entry)
    (h1 : getKey? pkgArgs "met_enabled" = none)
    (h2 : getKey? cliArgs "met_enabled" = none) :
    getKey? (metaSpread (combineConfigs
        [defaultConfig, parseConfig pkgArgs, parseConfig cliArgs])) "enabled" =
      some (JsValue.boolean true) ∧
    getKey? (createXuiJsonRecord (combineConfigs
        [defaultConfig, parseConfig pkgArgs, parseConfig cliArgs]) todayIso tree)
      "enabled" = some (JsValue.boolean true) := by
  have hm1 : getKey? (metaSpread (parseConfig pkgArgs)) "enabled" = none :=
    getKey?_metaSpread_parseConfig_none pkgArgs "enabled" h1
  have hm2 : getKey? (metaSpread (parseConfig cliArgs)) "enabled" = none :=
    getKey?_metaSpread_parseConfig_none cliArgs "enabled" h2
  have hmeta : getKey? (metaSpread (combineConfigs
      [defaultConfig, parseConfig pkgArgs, parseConfig cliArgs])) "enabled" =
      some (JsValue.boolean true) := by
    have hc : combineConfigs
        [defaultConfig, parseConfig pkgArgs, parseConfig cliArgs] =
        combineTwo (combineTwo (combineTwo [] defaultConfig)
          (parseConfig pkgArgs)) (parseConfig cliArgs) := rfl
    rw [hc, metaSpread_combineTwo, getKey?_append, hm2,
        metaSpread_combineTwo, getKey?_append, hm1]
    rfl
  refine ⟨hmeta, ?_⟩
  rw [getKey?_createXuiJsonRecord_ne_icon _ _ _ _ (by decide),
      getKey?_append, hmeta]

/-- C10 witness: the theorem applied to a descriptor carrying only
`met_version` and a CLI carrying only `name`. -/
theorem merged_metadata_enabled_true_witness :
    getKey? (metaSpread (combineConfigs
        [defaultConfig,
         parseConfig [("met_version", JsValue.str "1.0.0")],
         parseConfig [("name", JsValue.str "demo")]])) "enabled" =
      some (JsValue.boolean true) ∧
    getKey? (createXuiJsonRecord (combineConfigs
        [defaultConfig,
         parseConfig [("met_version", JsValue.str "1.0.0")],
         parseConfig [("name", JsValue.str "demo")]])
        "2026-10-11T00:00:00.000Z" []) "enabled" =
      some (JsValue.boolean true) :=
  merged_metadata_enabled_true
    [("met_version", JsValue.str "1.0.0")]
    [("name", JsValue.str "demo")]
    "2026-10-11T00:00:00.000Z" [] rfl rfl

end XuiPackager
